import Mathlib

/-!
Shallow embedding of the pyrsimg repository (coordinate-transform and
raster-utility helpers for remote-sensing imagery) and verification of
its specification claims.

Modules embedded:
- geo_imgxy.py : get_utm_zone, geo2imagexy, imagexy2geo,
  deg2meter_resolution, meter2deg_resolution
- layer_stack.py : layer_stack (metadata aggregation and output profile)
- raster_vec.py : raster2vec, vec2mask
- imgShow.py : imgShow (aliasing behaviour of the input array)

Numeric values carried by rasters and geotransforms are modelled as
rationals; the resolution-conversion functions, whose claim is about
exact real arithmetic, are modelled over the reals.
-/

namespace Pyrsimg

/-- A GDAL geotransform tuple (t0, t1, t2, t3, t4, t5). -/
structure GeoTrans where
  c0 : ℚ
  c1 : ℚ
  c2 : ℚ
  c3 : ℚ
  c4 : ℚ
  c5 : ℚ

/-- Embeds imagexy2geo from geo_imgxy.py:
x = t0 + col*t1 + row*t2, y = t3 + col*t4 + row*t5. -/
def imagexy2geo (row col : ℚ) (t : GeoTrans) : ℚ × ℚ :=
  (t.c0 + col * t.c1 + row * t.c2, t.c3 + col * t.c4 + row * t.c5)

/-- Embeds the call np.linalg.solve(a, b) inside geo2imagexy, where
a = [[t1, t2], [t4, t5]] and b = (x - t0, y - t3); returns the numpy
solution order (col_img, row_img), by the 2x2 Cramer formula. The
result is meaningful when the determinant t1*t5 - t2*t4 is nonzero
(numpy raises on a singular matrix). -/
def linalgSolve2 (t : GeoTrans) (x y : ℚ) : ℚ × ℚ :=
  let det := t.c1 * t.c5 - t.c2 * t.c4
  let bx := x - t.c0
  let by2 := y - t.c3
  ((bx * t.c5 - t.c2 * by2) / det, (t.c1 * by2 - bx * t.c4) / det)

/-- The (row, col) image location geo2imagexy computes before its bounds
check: the linear solve, followed by flooring when the flag is true. -/
def geo2imagexyLoc (x y : ℚ) (t : GeoTrans) (toInt : Bool) : ℚ × ℚ :=
  let cr := linalgSolve2 t x y
  if toInt then ((Int.floor cr.2 : ℚ), (Int.floor cr.1 : ℚ)) else (cr.2, cr.1)

/-- Embeds geo2imagexy from geo_imgxy.py. The source raises IndexError
when row_img >= rsimg_array.shape[0] or col_img >= rsimg_array.shape[1];
raising is modelled as none, a normal return as some (row, col).
shape0 and shape1 are the two leading dimensions of rsimg_array. -/
def geo2imagexy (x y : ℚ) (t : GeoTrans) (shape0 shape1 : ℕ) (toInt : Bool) :
    Option (ℚ × ℚ) :=
  let rc := geo2imagexyLoc x y t toInt
  if (shape0 : ℚ) ≤ rc.1 ∨ (shape1 : ℚ) ≤ rc.2 then none
  else some rc

/-- Embeds get_utm_zone from geo_imgxy.py: int(np.floor(lon/6) + 31).
np.floor(lon/6) + 31 is an integer-valued float, so the int cast is
exact and the result is the mathematical floor(lon/6) + 31. -/
def get_utm_zone (lon : ℚ) : ℤ :=
  Int.floor (lon / 6) + 31

/-- math.radians, as used by the resolution converters. -/
noncomputable def radians (x : ℝ) : ℝ := x * Real.pi / 180

/-- Mean Earth radius in meters, as in geo_imgxy.py. -/
def earthR : ℝ := 6371000

/-- Embeds deg2meter_resolution from geo_imgxy.py, in exact real
arithmetic. Returns (lon resolution in meters, lat resolution in meters). -/
noncomputable def deg2meter_resolution (degree_res center_lat : ℝ) : ℝ × ℝ :=
  let lat_res_m := degree_res * (Real.pi * earthR / 180)
  let lon_res_m := degree_res * (Real.pi * earthR / 180) * Real.cos (radians center_lat)
  (lon_res_m, lat_res_m)

/-- Embeds meter2deg_resolution from geo_imgxy.py, in exact real
arithmetic. Returns (lon resolution in degrees, lat resolution in degrees). -/
noncomputable def meter2deg_resolution (meter_res center_lat : ℝ) : ℝ × ℝ :=
  let lat_res_deg := (meter_res * 180) / (Real.pi * earthR)
  let lon_res_deg := (meter_res * 180) / (Real.pi * earthR * Real.cos (radians center_lat))
  (lon_res_deg, lat_res_deg)

/-- Python min over a nonempty list, as min(generator) in layer_stack;
the empty-list default 0 is never reached by layer_stack. -/
def qmin : List ℚ → ℚ
  | [] => 0
  | x :: xs => xs.foldl min x

/-- Python max over a nonempty list, as max(generator) in layer_stack. -/
def qmax : List ℚ → ℚ
  | [] => 0
  | x :: xs => xs.foldl max x

/-- Python int(round(x)) on an exact rational: round half to even. -/
def pyRound (q : ℚ) : ℤ :=
  if q - Int.floor q < 1/2 then Int.floor q
  else if 1/2 < q - Int.floor q then Int.floor q + 1
  else if Int.floor q % 2 = 0 then Int.floor q else Int.floor q + 1

/-- The per-band metadata layer_stack reads in its step 1 from each input
file: bounds, dtype, nodata, resolution (absolute values of the transform
diagonal) and CRS. dtype and crs are carried as abstract identifiers. -/
structure BandInfo where
  left : ℚ
  bottom : ℚ
  right : ℚ
  top : ℚ
  dtype : ℕ
  nodata : Option ℚ
  x_res : ℚ
  y_res : ℚ
  crs : ℕ
deriving DecidableEq

/-- The extent_mode string argument of layer_stack: the two recognized
values, and other standing for any other string. -/
inductive ExtentMode where
  | union
  | intersection
  | other
deriving DecidableEq

/-- The exceptions layer_stack can raise before creating the output file:
IndexError on an empty band list (band_info[0]), and the two ValueErrors
of its extent handling. -/
inductive StackError where
  | indexError
  | noIntersection
  | invalidExtentMode
deriving DecidableEq

/-- The output profile layer_stack assembles in its step 5, together with
the extent values of step 3 and the resolution from which the transform
and dimensions are derived. The affine transform of the profile is
(res_x, 0, left, 0, -res_y, top). -/
structure OutProfile where
  left : ℚ
  bottom : ℚ
  right : ℚ
  top : ℚ
  width : ℤ
  height : ℤ
  count : ℕ
  dtype : ℕ
  nodata : ℚ
  crs : ℕ
  res_x : ℚ
  res_y : ℚ
deriving DecidableEq

/-- The affine output transform rasterio.Affine(res_x, 0, left, 0, -res_y, top)
of the profile, as the coefficient tuple (a, b, c, d, e, f). -/
def OutProfile.transform (p : OutProfile) : ℚ × ℚ × ℚ × ℚ × ℚ × ℚ :=
  (p.res_x, 0, p.left, 0, -p.res_y, p.top)

/-- Embeds steps 2-5 of layer_stack from layer_stack.py: defaulting of
dtype, nodata and resolution from the first band, the extent computation
by mode, the two ValueError checks, and the output profile. Raising is
modelled as Except.error, in which case no output file is created; the
per-band reprojection of step 6 is a library call writing into the
profile created here. band_info is the metadata list of step 1, one
entry per input path. -/
def layer_stack (band_info : List BandInfo) (extent_mode : ExtentMode)
    (resolution : Option (ℚ × ℚ)) (output_dtype : Option ℕ)
    (output_nodata : Option ℚ) : Except StackError OutProfile :=
  match band_info with
  | [] => Except.error StackError.indexError
  | b0 :: _ =>
    let dtype := output_dtype.getD b0.dtype
    let nodata := output_nodata.getD (b0.nodata.getD 0)
    let res := resolution.getD (b0.x_res, b0.y_res)
    match extent_mode with
    | ExtentMode.union =>
      let left := qmin (band_info.map BandInfo.left)
      let bottom := qmin (band_info.map BandInfo.bottom)
      let right := qmax (band_info.map BandInfo.right)
      let top := qmax (band_info.map BandInfo.top)
      Except.ok
        { left := left, bottom := bottom, right := right, top := top,
          width := pyRound ((right - left) / res.1),
          height := pyRound ((top - bottom) / res.2),
          count := band_info.length, dtype := dtype, nodata := nodata,
          crs := b0.crs, res_x := res.1, res_y := res.2 }
    | ExtentMode.intersection =>
      let left := qmax (band_info.map BandInfo.left)
      let bottom := qmax (band_info.map BandInfo.bottom)
      let right := qmin (band_info.map BandInfo.right)
      let top := qmin (band_info.map BandInfo.top)
      if left ≥ right ∨ bottom ≥ top then Except.error StackError.noIntersection
      else
        Except.ok
          { left := left, bottom := bottom, right := right, top := top,
            width := pyRound ((right - left) / res.1),
            height := pyRound ((top - bottom) / res.2),
            count := band_info.length, dtype := dtype, nodata := nodata,
            crs := b0.crs, res_x := res.1, res_y := res.2 }
    | ExtentMode.other => Except.error StackError.invalidExtentMode

/-- Sample band with bounds (0, 0, 2, 2), resolution 1, no nodata. -/
def bandA : BandInfo :=
  { left := 0, bottom := 0, right := 2, top := 2, dtype := 7, nodata := none,
    x_res := 1, y_res := 1, crs := 5 }

/-- Sample band with bounds (1, 1, 3, 3), overlapping bandA. -/
def bandB : BandInfo :=
  { left := 1, bottom := 1, right := 3, top := 3, dtype := 9, nodata := some 4,
    x_res := 2, y_res := 2, crs := 6 }

/-- Sample band with bounds (10, 10, 12, 12), disjoint from bandA. -/
def bandC : BandInfo :=
  { left := 10, bottom := 10, right := 12, top := 12, dtype := 9, nodata := some 4,
    x_res := 2, y_res := 2, crs := 6 }

/-- The profile layer_stack produces for [bandA, bandB] in union mode with
all optional parameters omitted. -/
def profAB_union : OutProfile :=
  { left := 0, bottom := 0, right := 3, top := 3, width := 3, height := 3,
    count := 2, dtype := 7, nodata := 0, crs := 5, res_x := 1, res_y := 1 }

/-- The profile layer_stack produces for [bandA, bandB] in intersection
mode with all optional parameters omitted. -/
def profAB_inter : OutProfile :=
  { left := 1, bottom := 1, right := 2, top := 2, width := 1, height := 1,
    count := 2, dtype := 7, nodata := 0, crs := 5, res_x := 1, res_y := 1 }

/-- The profile layer_stack produces for [bandA] in union mode with all
optional parameters omitted. -/
def profA : OutProfile :=
  { left := 0, bottom := 0, right := 2, top := 2, width := 2, height := 2,
    count := 1, dtype := 7, nodata := 0, crs := 5, res_x := 1, res_y := 1 }

/-- Embeds the filtering loop of raster2vec from raster_vec.py. The
(polygon, DN value) pairs produced by rasterio.features.shapes are
library output and are taken as input; DN values of the integer raster
are integers and val = int(value) is their value. The loop keeps the
pairs whose value is in dn_values (membership in set(dn_values) equals
list membership); if none match the function returns without writing a
file (none), otherwise the kept rows are written (some). -/
def raster2vec {G : Type} (pairs : List (G × ℤ)) (dn_values : List ℤ) :
    Option (List (G × ℤ)) :=
  let keep := pairs.filter (fun pv => dn_values.contains pv.2)
  if keep.isEmpty then none else some keep

/-- Image arrays as flat lists of pixel values; none models NaN. -/
abbrev Arr : Type := List (Option ℚ)

/-- A heap of numpy arrays, addressed by identifiers. -/
abbrev Heap : Type := Nat → Arr

/-- The in-place assignment img[np.isnan(img)] = 0 as a value transform:
every NaN entry becomes 0, the rest are unchanged. -/
def setNanZero (a : Arr) : Arr :=
  a.map (fun v => match v with | none => some 0 | some q => some q)

/-- Embeds lines 20-22 of imgShow from imgShow.py as heap updates. The
caller passes the array at address imgId; freshId is the unused address
of the allocation made by the call. Line 20 (img = img.copy()) allocates
a copy of the argument at freshId and rebinds the local name img to it;
line 21 (img[np.isnan(img)] = 0) writes in place through the local img,
i.e. at freshId; line 22 (img = np.squeeze(img)) returns a view and
writes nothing. The remaining lines of imgShow build fresh arrays
(np.zeros_like, fancy indexing) and never write through img. -/
def imgShowHeap (h : Heap) (imgId freshId : Nat) : Heap :=
  let h1 : Heap := fun i => if i = freshId then h imgId else h i
  let h2 : Heap := fun i => if i = freshId then setNanZero (h1 freshId) else h1 i
  h2

/-- Models rasterio.features.rasterize as called by vec2mask in
raster_vec.py: burn value 1 into every pixel covered by some input
geometry, fill 0 elsewhere, with uint8 storage (values reduced mod 256).
Which pixels the geometries cover is library geometry code, abstracted
as the predicate covered. -/
def rasterize (covered : ℕ → ℕ → Bool) (shape : ℕ × ℕ) (fill burn : ℕ) :
    List (List ℕ) :=
  (List.range shape.1).map (fun r =>
    (List.range shape.2).map (fun c => (if covered r c then burn else fill) % 256))

/-- Embeds vec2mask from raster_vec.py: rasterize the vector geometries
over the raster grid (out_shape = src.shape) with fill 0, each geometry
paired with burn value 1, dtype uint8. When path_save is given the mask
is additionally written to disk; in both cases the same mask is
returned. -/
def vec2mask (covered : ℕ → ℕ → Bool) (shape : ℕ × ℕ) (path_save : Bool) :
    List (List ℕ) :=
  rasterize covered shape 0 1

end Pyrsimg

namespace Pyrsimg

/-- C9: over [-180, 180), get_utm_zone is floor(lon/6) + 31 and lies in
[1, 60]; at lon = 180 it returns 61. -/
theorem get_utm_zone_range :
    (∀ lon : ℚ, -180 ≤ lon → lon < 180 →
      get_utm_zone lon = Int.floor (lon / 6) + 31 ∧
      1 ≤ get_utm_zone lon ∧ get_utm_zone lon ≤ 60) ∧
    get_utm_zone 180 = 61 := by
  constructor
  · intro lon hlo hhi
    refine ⟨rfl, ?_, ?_⟩
    · have h : (-30 : ℤ) ≤ Int.floor (lon / 6) := by
        rw [Int.le_floor]
        push_cast
        linarith
      unfold get_utm_zone
      omega
    · have h : Int.floor (lon / 6) < 30 := by
        rw [Int.floor_lt]
        push_cast
        linarith
      unfold get_utm_zone
      omega
  · unfold get_utm_zone
    norm_num

/-- Witness for C9 at lon = -180. -/
theorem get_utm_zone_range_witness :
    get_utm_zone (-180) = Int.floor ((-180 : ℚ) / 6) + 31 ∧
    1 ≤ get_utm_zone (-180) ∧ get_utm_zone (-180) ≤ 60 :=
  get_utm_zone_range.1 (-180) (by norm_num) (by norm_num)

/-- The linear solve inside geo2imagexy inverts imagexy2geo whenever the
2x2 geotransform matrix has nonzero determinant. -/
theorem linalgSolve2_imagexy2geo (t : GeoTrans) (row col : ℚ)
    (hdet : t.c1 * t.c5 - t.c2 * t.c4 ≠ 0) :
    linalgSolve2 t (imagexy2geo row col t).1 (imagexy2geo row col t).2 = (col, row) := by
  unfold linalgSolve2 imagexy2geo
  dsimp only
  refine Prod.ext ?_ ?_ <;> dsimp only
  · rw [div_eq_iff hdet]
    ring
  · rw [div_eq_iff hdet]
    ring

/-- C3: for an invertible geotransform and a (row, col) inside the image
shape, imagexy2geo followed by geo2imagexy (with integer=False) returns
the original (row, col). -/
theorem geo_imagexy_roundtrip (t : GeoTrans) (row col : ℚ) (s0 s1 : ℕ)
    (hdet : t.c1 * t.c5 - t.c2 * t.c4 ≠ 0)
    (hr0 : 0 ≤ row) (hr : row < (s0 : ℚ)) (hc0 : 0 ≤ col) (hc : col < (s1 : ℚ)) :
    geo2imagexy (imagexy2geo row col t).1 (imagexy2geo row col t).2 t s0 s1 false =
      some (row, col) := by
  unfold geo2imagexy geo2imagexyLoc
  rw [linalgSolve2_imagexy2geo t row col hdet]
  simp only [Bool.false_eq_true, if_false]
  rw [if_neg]
  push_neg
  exact ⟨hr, hc⟩

/-- Witness for C3 with the identity-grid geotransform at (row, col) = (1/2, 3/2). -/
theorem geo_imagexy_roundtrip_witness :
    ((⟨0, 1, 0, 0, 0, 1⟩ : GeoTrans).c1 * (⟨0, 1, 0, 0, 0, 1⟩ : GeoTrans).c5 -
      (⟨0, 1, 0, 0, 0, 1⟩ : GeoTrans).c2 * (⟨0, 1, 0, 0, 0, 1⟩ : GeoTrans).c4 ≠ 0) ∧
    geo2imagexy (imagexy2geo (1/2) (3/2) ⟨0, 1, 0, 0, 0, 1⟩).1
      (imagexy2geo (1/2) (3/2) ⟨0, 1, 0, 0, 0, 1⟩).2 ⟨0, 1, 0, 0, 0, 1⟩ 2 2 false =
      some (1/2, 3/2) :=
  ⟨by norm_num, geo_imagexy_roundtrip ⟨0, 1, 0, 0, 0, 1⟩ (1/2) (3/2) 2 2
    (by norm_num) (by norm_num) (by norm_num) (by norm_num) (by norm_num)⟩

/-- C4 counterexample: with the identity-grid geotransform on a 2x2 image,
the georeferenced point (0, -10) maps to image row -10, which is outside
the image array (below even the negative-indexing range -2..1), yet
geo2imagexy returns it normally instead of raising IndexError: the code
only checks the upper bounds. -/
theorem geo2imagexy_missing_lower_check :
    geo2imagexy 0 (-10) ⟨0, 1, 0, 0, 0, 1⟩ 2 2 true = some (-10, 0) ∧
    ((-10 : ℚ) < -2 ∧ (-2 : ℚ) ≤ -(2 : ℕ)) := by
  refine ⟨?_, by norm_num⟩
  unfold geo2imagexy geo2imagexyLoc linalgSolve2
  norm_num

/-- C4 amended: geo2imagexy raises IndexError exactly when the computed
row is at least shape0 or the computed column is at least shape1; it
performs no lower-bound check, and otherwise returns the computed
(row, col) location, which then satisfies only those upper bounds. -/
theorem geo2imagexy_upper_bound_only (x y : ℚ) (t : GeoTrans) (s0 s1 : ℕ) (b : Bool) :
    (geo2imagexy x y t s0 s1 b = none ↔
      (s0 : ℚ) ≤ (geo2imagexyLoc x y t b).1 ∨ (s1 : ℚ) ≤ (geo2imagexyLoc x y t b).2) ∧
    (∀ rc, geo2imagexy x y t s0 s1 b = some rc →
      rc = geo2imagexyLoc x y t b ∧ rc.1 < (s0 : ℚ) ∧ rc.2 < (s1 : ℚ)) := by
  unfold geo2imagexy
  by_cases h : (s0 : ℚ) ≤ (geo2imagexyLoc x y t b).1 ∨ (s1 : ℚ) ≤ (geo2imagexyLoc x y t b).2
  · rw [if_pos h]
    exact ⟨by simp [h], by intro rc hrc; exact absurd hrc (by simp)⟩
  · rw [if_neg h]
    push_neg at h
    refine ⟨by simp [h.1, h.2, not_or], ?_⟩
    intro rc hrc
    obtain rfl : geo2imagexyLoc x y t b = rc := by injection hrc
    exact ⟨rfl, h.1, h.2⟩

/-- Witness for the amended C4 at the identity-grid geotransform, showing
a normal return whose location satisfies the upper bounds. -/
theorem geo2imagexy_upper_bound_only_witness :
    geo2imagexy 1 1 ⟨0, 1, 0, 0, 0, 1⟩ 2 2 false = some (1, 1) →
    ((1 : ℚ), (1 : ℚ)) = geo2imagexyLoc 1 1 ⟨0, 1, 0, 0, 0, 1⟩ false ∧
      ((1 : ℚ), (1 : ℚ)).1 < ((2 : ℕ) : ℚ) ∧ ((1 : ℚ), (1 : ℚ)).2 < ((2 : ℕ) : ℚ) :=
  (geo2imagexy_upper_bound_only 1 1 ⟨0, 1, 0, 0, 0, 1⟩ 2 2 false).2 (1, 1)

/-- C5: in exact real arithmetic the latitude components of
deg2meter_resolution and meter2deg_resolution are mutually inverse at any
fixed center latitude whose cosine (in radians) is nonzero. -/
theorem resolution_roundtrip (d m lat : ℝ) (h : Real.cos (radians lat) ≠ 0) :
    (meter2deg_resolution (deg2meter_resolution d lat).2 lat).2 = d ∧
    (deg2meter_resolution (meter2deg_resolution m lat).2 lat).2 = m := by
  have hpi : Real.pi ≠ 0 := Real.pi_ne_zero
  have hR : earthR ≠ 0 := by norm_num [earthR]
  unfold deg2meter_resolution meter2deg_resolution
  dsimp only
  constructor
  · field_simp
  · field_simp

/-- Witness for C5 at degree_res = meter_res = 1 and center_lat = 0. -/
theorem resolution_roundtrip_witness :
    Real.cos (radians 0) ≠ 0 ∧
    ((meter2deg_resolution (deg2meter_resolution 1 0).2 0).2 = 1 ∧
      (deg2meter_resolution (meter2deg_resolution 1 0).2 0).2 = 1) := by
  have h : Real.cos (radians 0) ≠ 0 := by simp [radians]
  exact ⟨h, resolution_roundtrip 1 1 0 h⟩

theorem foldl_min_le_init (xs : List ℚ) (a : ℚ) : xs.foldl min a ≤ a := by
  induction xs generalizing a with
  | nil => simp
  | cons x xs ih => exact le_trans (ih (min a x)) (min_le_left a x)

theorem foldl_min_le (xs : List ℚ) (a : ℚ) : ∀ v ∈ xs, xs.foldl min a ≤ v := by
  induction xs generalizing a with
  | nil => simp
  | cons x xs ih =>
    intro v hv
    rcases List.mem_cons.mp hv with rfl | hv
    · exact le_trans (foldl_min_le_init xs (min a v)) (min_le_right a v)
    · exact ih (min a x) v hv

theorem foldl_min_eq_or_mem (xs : List ℚ) (a : ℚ) :
    xs.foldl min a = a ∨ xs.foldl min a ∈ xs := by
  induction xs generalizing a with
  | nil => simp
  | cons x xs ih =>
    rcases ih (min a x) with h | h
    · rcases min_choice a x with hc | hc
      · exact Or.inl (by rw [List.foldl_cons, h, hc])
      · exact Or.inr (by rw [List.foldl_cons, h, hc]; exact List.mem_cons_self x xs)
    · exact Or.inr (List.mem_cons_of_mem x h)

theorem foldl_max_init_le (xs : List ℚ) (a : ℚ) : a ≤ xs.foldl max a := by
  induction xs generalizing a with
  | nil => simp
  | cons x xs ih => exact le_trans (le_max_left a x) (ih (max a x))

theorem le_foldl_max (xs : List ℚ) (a : ℚ) : ∀ v ∈ xs, v ≤ xs.foldl max a := by
  induction xs generalizing a with
  | nil => simp
  | cons x xs ih =>
    intro v hv
    rcases List.mem_cons.mp hv with rfl | hv
    · exact le_trans (le_max_right a v) (foldl_max_init_le xs (max a v))
    · exact ih (max a x) v hv

theorem foldl_max_eq_or_mem (xs : List ℚ) (a : ℚ) :
    xs.foldl max a = a ∨ xs.foldl max a ∈ xs := by
  induction xs generalizing a with
  | nil => simp
  | cons x xs ih =>
    rcases ih (max a x) with h | h
    · rcases max_choice a x with hc | hc
      · exact Or.inl (by rw [List.foldl_cons, h, hc])
      · exact Or.inr (by rw [List.foldl_cons, h, hc]; exact List.mem_cons_self x xs)
    · exact Or.inr (List.mem_cons_of_mem x h)

theorem qmin_mem (l : List ℚ) (h : l ≠ []) : qmin l ∈ l := by
  match l with
  | [] => exact absurd rfl h
  | x :: xs =>
    rcases foldl_min_eq_or_mem xs x with h1 | h1
    · rw [qmin, h1]; exact List.mem_cons_self x xs
    · rw [qmin]; exact List.mem_cons_of_mem x h1

theorem qmin_le (l : List ℚ) : ∀ v ∈ l, qmin l ≤ v := by
  match l with
  | [] => intro v hv; exact absurd hv (List.not_mem_nil v)
  | x :: xs =>
    intro v hv
    rcases List.mem_cons.mp hv with rfl | hv
    · exact foldl_min_le_init xs v
    · exact foldl_min_le xs x v hv

theorem qmax_mem (l : List ℚ) (h : l ≠ []) : qmax l ∈ l := by
  match l with
  | [] => exact absurd rfl h
  | x :: xs =>
    rcases foldl_max_eq_or_mem xs x with h1 | h1
    · rw [qmax, h1]; exact List.mem_cons_self x xs
    · rw [qmax]; exact List.mem_cons_of_mem x h1

theorem le_qmax (l : List ℚ) : ∀ v ∈ l, v ≤ qmax l := by
  match l with
  | [] => intro v hv; exact absurd hv (List.not_mem_nil v)
  | x :: xs =>
    intro v hv
    rcases List.mem_cons.mp hv with rfl | hv
    · exact foldl_max_init_le xs v
    · exact le_foldl_max xs x v hv

/-- Rounding to the nearest integer: pyRound is within 1/2 of its argument. -/
theorem pyRound_near (q : ℚ) : |q - (pyRound q : ℚ)| ≤ 1/2 := by
  have h0 : ((Int.floor q : ℤ) : ℚ) ≤ q := Int.floor_le q
  have h1 : q < ((Int.floor q : ℤ) : ℚ) + 1 := Int.lt_floor_add_one q
  unfold pyRound
  split_ifs with hlt hgt hev
  · exact abs_le.mpr ⟨by linarith, by linarith⟩
  · exact abs_le.mpr ⟨by push_cast; linarith, by push_cast; linarith⟩
  · exact abs_le.mpr ⟨by linarith, by linarith⟩
  · exact abs_le.mpr ⟨by push_cast; linarith, by push_cast; linarith⟩

/-- C1: for a non-empty band list, layer_stack computes the union extent
as componentwise union of the band bounds (left and bottom are the least
elements, right and top the greatest), and the intersection extent as
componentwise intersection (left and bottom greatest, right and top
least); the output width and height are the quotients of the extent size
by the resolution rounded to integers, each within 1/2 of the exact
quotient. -/
theorem layer_stack_extent (b0 : BandInfo) (rest : List BandInfo)
    (resolution : Option (ℚ × ℚ)) (od : Option ℕ) (onod : Option ℚ) :
    (∀ p : OutProfile,
      layer_stack (b0 :: rest) ExtentMode.union resolution od onod = Except.ok p →
      0 < p.res_x → 0 < p.res_y →
      (p.left ∈ (b0 :: rest).map BandInfo.left ∧
        ∀ v ∈ (b0 :: rest).map BandInfo.left, p.left ≤ v) ∧
      (p.bottom ∈ (b0 :: rest).map BandInfo.bottom ∧
        ∀ v ∈ (b0 :: rest).map BandInfo.bottom, p.bottom ≤ v) ∧
      (p.right ∈ (b0 :: rest).map BandInfo.right ∧
        ∀ v ∈ (b0 :: rest).map BandInfo.right, v ≤ p.right) ∧
      (p.top ∈ (b0 :: rest).map BandInfo.top ∧
        ∀ v ∈ (b0 :: rest).map BandInfo.top, v ≤ p.top) ∧
      p.width = pyRound ((p.right - p.left) / p.res_x) ∧
      p.height = pyRound ((p.top - p.bottom) / p.res_y) ∧
      |(p.right - p.left) / p.res_x - (p.width : ℚ)| ≤ 1/2 ∧
      |(p.top - p.bottom) / p.res_y - (p.height : ℚ)| ≤ 1/2) ∧
    (∀ p : OutProfile,
      layer_stack (b0 :: rest) ExtentMode.intersection resolution od onod = Except.ok p →
      0 < p.res_x → 0 < p.res_y →
      (p.left ∈ (b0 :: rest).map BandInfo.left ∧
        ∀ v ∈ (b0 :: rest).map BandInfo.left, v ≤ p.left) ∧
      (p.bottom ∈ (b0 :: rest).map BandInfo.bottom ∧
        ∀ v ∈ (b0 :: rest).map BandInfo.bottom, v ≤ p.bottom) ∧
      (p.right ∈ (b0 :: rest).map BandInfo.right ∧
        ∀ v ∈ (b0 :: rest).map BandInfo.right, p.right ≤ v) ∧
      (p.top ∈ (b0 :: rest).map BandInfo.top ∧
        ∀ v ∈ (b0 :: rest).map BandInfo.top, p.top ≤ v) ∧
      p.width = pyRound ((p.right - p.left) / p.res_x) ∧
      p.height = pyRound ((p.top - p.bottom) / p.res_y) ∧
      |(p.right - p.left) / p.res_x - (p.width : ℚ)| ≤ 1/2 ∧
      |(p.top - p.bottom) / p.res_y - (p.height : ℚ)| ≤ 1/2) := by
  constructor
  · intro p hp _ _
    simp only [layer_stack] at hp
    injection hp with hp
    subst hp
    refine ⟨⟨qmin_mem _ (by simp), qmin_le _⟩, ⟨qmin_mem _ (by simp), qmin_le _⟩,
      ⟨qmax_mem _ (by simp), le_qmax _⟩, ⟨qmax_mem _ (by simp), le_qmax _⟩,
      rfl, rfl, pyRound_near _, pyRound_near _⟩
  · intro p hp _ _
    simp only [layer_stack] at hp
    split at hp
    · exact absurd hp (by simp)
    · injection hp with hp
      subst hp
      refine ⟨⟨qmax_mem _ (by simp), le_qmax _⟩, ⟨qmax_mem _ (by simp), le_qmax _⟩,
        ⟨qmin_mem _ (by simp), qmin_le _⟩, ⟨qmin_mem _ (by simp), qmin_le _⟩,
        rfl, rfl, pyRound_near _, pyRound_near _⟩

/-- Witness for C1 on the overlapping bands bandA and bandB. -/
theorem layer_stack_extent_witness :
    profAB_union.left ∈ [bandA, bandB].map BandInfo.left ∧
    profAB_inter.left ∈ [bandA, bandB].map BandInfo.left :=
  ⟨((layer_stack_extent bandA [bandB] none none none).1 profAB_union
      (by simp [layer_stack, qmin, qmax, pyRound, bandA, bandB, profAB_union]; norm_num)
      (by norm_num [profAB_union]) (by norm_num [profAB_union])).1.1,
   ((layer_stack_extent bandA [bandB] none none none).2 profAB_inter
      (by simp [layer_stack, qmin, qmax, pyRound, bandA, bandB, profAB_inter]; norm_num)
      (by norm_num [profAB_inter]) (by norm_num [profAB_inter])).1.1⟩

/-- C2: layer_stack fails with the no-intersection ValueError and creates
no output file when the intersection extent is empty, fails with the
invalid-mode ValueError for any extent_mode other than union and
intersection, and the output file is created only when both checks pass. -/
theorem layer_stack_error_checks (b0 : BandInfo) (rest : List BandInfo)
    (resolution : Option (ℚ × ℚ)) (od : Option ℕ) (onod : Option ℚ) :
    (qmax ((b0 :: rest).map BandInfo.left) ≥ qmin ((b0 :: rest).map BandInfo.right) ∨
      qmax ((b0 :: rest).map BandInfo.bottom) ≥ qmin ((b0 :: rest).map BandInfo.top) →
      layer_stack (b0 :: rest) ExtentMode.intersection resolution od onod =
        Except.error StackError.noIntersection) ∧
    (layer_stack (b0 :: rest) ExtentMode.other resolution od onod =
      Except.error StackError.invalidExtentMode) ∧
    (∀ mode : ExtentMode, ∀ p : OutProfile,
      layer_stack (b0 :: rest) mode resolution od onod = Except.ok p →
      mode = ExtentMode.union ∨
        (mode = ExtentMode.intersection ∧
          qmax ((b0 :: rest).map BandInfo.left) < qmin ((b0 :: rest).map BandInfo.right) ∧
          qmax ((b0 :: rest).map BandInfo.bottom) < qmin ((b0 :: rest).map BandInfo.top))) := by
  refine ⟨?_, by simp [layer_stack], ?_⟩
  · intro hcond
    simp only [layer_stack]
    rw [if_pos hcond]
  · intro mode p hp
    cases mode with
    | union => exact Or.inl rfl
    | other => exact absurd hp (by simp [layer_stack])
    | intersection =>
      refine Or.inr ⟨rfl, ?_⟩
      simp only [layer_stack] at hp
      split at hp
      · exact absurd hp (by simp)
      · rename_i hcond
        push_neg at hcond
        exact hcond

/-- Witness for C2 with the disjoint bands bandA and bandC, and a normal
return on [bandA, bandB] in intersection mode. -/
theorem layer_stack_error_checks_witness :
    (layer_stack [bandA, bandC] ExtentMode.intersection none none none =
      Except.error StackError.noIntersection) ∧
    (layer_stack [bandA, bandC] ExtentMode.other none none none =
      Except.error StackError.invalidExtentMode) ∧
    (ExtentMode.intersection = ExtentMode.union ∨
      (ExtentMode.intersection = ExtentMode.intersection ∧
        qmax ([bandA, bandB].map BandInfo.left) < qmin ([bandA, bandB].map BandInfo.right) ∧
        qmax ([bandA, bandB].map BandInfo.bottom) < qmin ([bandA, bandB].map BandInfo.top))) :=
  ⟨(layer_stack_error_checks bandA [bandC] none none none).1
      (by simp [qmin, qmax, bandA, bandC]; norm_num),
   (layer_stack_error_checks bandA [bandC] none none none).2.1,
   (layer_stack_error_checks bandA [bandB] none none none).2.2 ExtentMode.intersection
      profAB_inter
      (by simp [layer_stack, qmin, qmax, pyRound, bandA, bandB, profAB_inter]; norm_num)⟩

/-- C6: with all optional parameters omitted, the output profile takes its
dtype, resolution and CRS from the first band, its nodata from the first
band (0 when the first band has none), and its band count is the number
of input paths. -/
theorem layer_stack_default_profile (b0 : BandInfo) (rest : List BandInfo)
    (mode : ExtentMode) (p : OutProfile)
    (hp : layer_stack (b0 :: rest) mode none none none = Except.ok p) :
    p.dtype = b0.dtype ∧
    p.nodata = (match b0.nodata with | some v => v | none => 0) ∧
    p.res_x = b0.x_res ∧ p.res_y = b0.y_res ∧
    p.transform = (b0.x_res, 0, p.left, 0, -b0.y_res, p.top) ∧
    p.crs = b0.crs ∧ p.count = (b0 :: rest).length := by
  have hnod : ∀ q : OutProfile,
      q.nodata = b0.nodata.getD 0 →
      q.nodata = (match b0.nodata with | some v => v | none => 0) := by
    intro q hq
    cases h : b0.nodata with
    | none => rw [hq, h]; rfl
    | some v => rw [hq, h]; rfl
  cases mode with
  | other => exact absurd hp (by simp [layer_stack])
  | union =>
    simp only [layer_stack] at hp
    injection hp with hp
    subst hp
    exact ⟨rfl, hnod _ rfl, rfl, rfl, rfl, rfl, rfl⟩
  | intersection =>
    simp only [layer_stack] at hp
    split at hp
    · exact absurd hp (by simp)
    · injection hp with hp
      subst hp
      exact ⟨rfl, hnod _ rfl, rfl, rfl, rfl, rfl, rfl⟩

/-- Witness for C6 on the single band bandA in union mode. -/
theorem layer_stack_default_profile_witness :
    profA.dtype = bandA.dtype ∧
    profA.nodata = (match bandA.nodata with | some v => v | none => 0) ∧
    profA.res_x = bandA.x_res ∧ profA.res_y = bandA.y_res ∧
    profA.transform = (bandA.x_res, 0, profA.left, 0, -bandA.y_res, profA.top) ∧
    profA.crs = bandA.crs ∧ profA.count = [bandA].length :=
  layer_stack_default_profile bandA [] ExtentMode.union profA
    (by simp [layer_stack, qmin, qmax, pyRound, bandA, profA])

/-- C7: the vector rows raster2vec writes are exactly the extracted
polygons whose integer DN value is in dn_values, and it returns without
writing any output file precisely when no extracted polygon matches. -/
theorem raster2vec_filter_exact {G : Type} (pairs : List (G × ℤ)) (dn_values : List ℤ) :
    (∀ l, raster2vec pairs dn_values = some l →
      ∀ pv : G × ℤ, pv ∈ l ↔ pv ∈ pairs ∧ pv.2 ∈ dn_values) ∧
    (raster2vec pairs dn_values = none ↔ ∀ pv ∈ pairs, pv.2 ∉ dn_values) := by
  unfold raster2vec
  dsimp only
  constructor
  · intro l hl pv
    split at hl
    · exact absurd hl (by simp)
    · injection hl with hl
      subst hl
      simp [List.mem_filter, List.elem_iff]
  · split
    · rename_i hemp
      rw [List.isEmpty_iff, List.filter_eq_nil_iff] at hemp
      simp only [true_iff]
      intro pv hpv
      have := hemp pv hpv
      rwa [List.elem_iff] at this
    · rename_i hemp
      rw [List.isEmpty_iff, List.filter_eq_nil_iff] at hemp
      simp only [reduceCtorEq, false_iff]
      intro hall
      apply hemp
      intro pv hpv
      rw [List.elem_iff]
      exact hall pv hpv

/-- Witness for C7: with one matching and one non-matching polygon, the
matching pair is kept because its DN value 5 is in the requested list. -/
theorem raster2vec_filter_exact_witness :
    ((0 : ℕ), (5 : ℤ)) ∈ [((0 : ℕ), (5 : ℤ)), ((1 : ℕ), (7 : ℤ))] ∧
    (((0 : ℕ), (5 : ℤ))).2 ∈ [(5 : ℤ)] :=
  ((raster2vec_filter_exact [((0 : ℕ), (5 : ℤ)), ((1 : ℕ), (7 : ℤ))] [(5 : ℤ)]).1
    [((0 : ℕ), (5 : ℤ))] (by decide) ((0 : ℕ), (5 : ℤ))).mp (by decide)

/-- C8: imgShow leaves the caller array unchanged: running its first
lines on a heap where the argument lives at imgId and the copy is
allocated at a distinct fresh address leaves the array at imgId exactly
as it was, while the NaN replacement lands on the copy. -/
theorem imgShow_input_unchanged (h : Heap) (imgId freshId : Nat)
    (hne : imgId ≠ freshId) :
    imgShowHeap h imgId freshId imgId = h imgId ∧
    imgShowHeap h imgId freshId freshId = setNanZero (h imgId) := by
  constructor
  · simp [imgShowHeap, if_neg hne]
  · simp [imgShowHeap]

/-- Witness for C8 on a two-element array containing a NaN. -/
theorem imgShow_input_unchanged_witness :
    (0 : Nat) ≠ 1 ∧
    (imgShowHeap (fun _ => [none, some 3]) 0 1 0 = (fun _ => ([none, some 3] : Arr)) 0 ∧
      imgShowHeap (fun _ => [none, some 3]) 0 1 1 =
        setNanZero ((fun _ => ([none, some 3] : Arr)) 0)) :=
  ⟨by decide, imgShow_input_unchanged (fun _ => [none, some 3]) 0 1 (by decide)⟩

/-- C10: the mask vec2mask returns has the raster shape and every element
is 0 or 1 (each stored as a uint8 value), whether or not a save path is
given. -/
theorem vec2mask_binary (covered : ℕ → ℕ → Bool) (shape : ℕ × ℕ) (path_save : Bool) :
    (vec2mask covered shape path_save).length = shape.1 ∧
    (∀ row ∈ vec2mask covered shape path_save,
      row.length = shape.2 ∧ ∀ v ∈ row, v = 0 ∨ v = 1) ∧
    vec2mask covered shape path_save = vec2mask covered shape true := by
  refine ⟨by simp [vec2mask, rasterize], ?_, rfl⟩
  intro row hrow
  simp only [vec2mask, rasterize, List.mem_map, List.mem_range] at hrow
  obtain ⟨r, _, rfl⟩ := hrow
  refine ⟨by simp, ?_⟩
  intro v hv
  simp only [List.mem_map, List.mem_range] at hv
  obtain ⟨c, _, rfl⟩ := hv
  by_cases hc : covered r c
  · rw [if_pos hc]; exact Or.inr rfl
  · rw [if_neg hc]; exact Or.inl rfl

/-- Witness for C10 on a 1x2 raster fully covered by the vector. -/
theorem vec2mask_binary_witness :
    (vec2mask (fun _ _ => true) (1, 2) true).length = 1 ∧
    ((1 : ℕ) = 0 ∨ (1 : ℕ) = 1) :=
  ⟨(vec2mask_binary (fun _ _ => true) (1, 2) true).1,
   ((vec2mask_binary (fun _ _ => true) (1, 2) true).2.1 [1, 1] (by decide)).2 1 (by decide)⟩

end Pyrsimg
